import Mathlib

/-!
Verification of the monstr client-side data layer.

This file shallowly embeds the pure computations of the monstr React client:
the API-response normalizers (`apiClient.ts`), the node-selection store
(`useSelectedNodes.ts`), the request deduper (`requestDeduper.ts`), the unit
pickers (`units.ts`) and the derived views of the traffic panels.  JavaScript
numbers are modelled as `JNum` (a rational or one of NaN/±Infinity); JSON-ish
runtime values as `JSVal`.  String-to-number and array/number-to-string
coercions of JavaScript are abstracted: a string or array value carries the
result of its JS coercion as data, since no verified computation inspects it
beyond finiteness.
-/

namespace Monstr

/-- A JavaScript number: a finite rational or one of NaN / +Infinity /
-Infinity. -/
inductive JNum where
  | fin (q : ℚ)
  | nan
  | inf
  | ninf
deriving DecidableEq, Repr

/-- A JavaScript runtime value as seen by the client normalizers.  A string
carries the `JNum` that JS `Number()` would produce for it; an array carries
both its `Number()` and `String()` coercions, which are never inspected by the
verified code paths. -/
inductive JSVal where
  | vundefined
  | vnull
  | vbool (b : Bool)
  | vnum (n : JNum)
  | vstr (s : String) (coerced : JNum)
  | varr (elems : List JSVal) (coercedNum : JNum) (coercedStr : String)
  | vobj (fields : List (String × JSVal))
deriving Repr

/-- JS truthiness. -/
def truthy : JSVal → Bool
  | .vundefined => false
  | .vnull => false
  | .vbool b => b
  | .vnum (.fin q) => decide (q ≠ 0)
  | .vnum .nan => false
  | .vnum .inf => true
  | .vnum .ninf => true
  | .vstr s _ => decide (s ≠ "")
  | .varr _ _ _ => true
  | .vobj _ => true

/-- JS `typeof v === "object"` (true for plain objects, arrays and `null`). -/
def isObjectType : JSVal → Bool
  | .vnull => true
  | .varr _ _ _ => true
  | .vobj _ => true
  | _ => false

/-- Property access `v[k]`: `undefined` unless `v` is an object with key `k`
(first binding wins, as in a JS object literal / `Map`). -/
def getField : JSVal → String → JSVal
  | .vobj fields, k => (fields.lookup k).getD .vundefined
  | _, _ => .vundefined

/-- JS `k in v` for objects. -/
def hasField : JSVal → String → Bool
  | .vobj fields, k => decide ((fields.lookup k).isSome)
  | _, _ => false

/-- JS nullish test (`null` or `undefined`). -/
def nullish : JSVal → Bool
  | .vundefined => true
  | .vnull => true
  | _ => false

/-- JS nullish coalescing `a ?? b`. -/
def coalesce (a b : JSVal) : JSVal := if nullish a then b else a

/-- JS `Number(v)` (ToNumber).  String and array coercions are the carried
data; a plain object coerces through "[object Object]" to NaN. -/
def toNumber : JSVal → JNum
  | .vundefined => .nan
  | .vnull => .fin 0
  | .vbool b => .fin (if b then 1 else 0)
  | .vnum n => n
  | .vstr _ c => c
  | .varr _ c _ => c
  | .vobj _ => .nan

/-- JS `String(v)` (ToString).  Number formatting is abstracted by the
rational's `toString`; array coercion is the carried data. -/
def toStr : JSVal → String
  | .vundefined => "undefined"
  | .vnull => "null"
  | .vbool b => if b then "true" else "false"
  | .vnum (.fin q) => toString q
  | .vnum .nan => "NaN"
  | .vnum .inf => "Infinity"
  | .vnum .ninf => "-Infinity"
  | .vstr s _ => s
  | .varr _ _ c => c
  | .vobj _ => "[object Object]"

/-- `Number.isFinite(n) ? n : 0` on a raw JS number. -/
def finiteOr0 : JNum → ℚ
  | .fin q => q
  | _ => 0

/-- apiClient.ts `toNumeric`: `Number(value)`, kept only when finite,
otherwise 0. -/
def toNumeric (value : JSVal) : ℚ :=
  match toNumber value with
  | .fin q => q
  | _ => 0

/-- types/index.ts `TransferActualMetrics` (all numeric fields finite in the
model by construction). -/
structure TransferActualMetrics where
  operationsTotal : ℚ
  operationsSuccess : ℚ
  dataBytes : ℚ
  rate : ℚ
deriving DecidableEq, Repr

/-- useTransfersActual.ts `ZERO_METRICS`. -/
def ZERO_METRICS : TransferActualMetrics :=
  { operationsTotal := 0, operationsSuccess := 0, dataBytes := 0, rate := 0 }

/-- apiClient.ts `extractMetrics`. -/
def extractMetrics (value : JSVal) : TransferActualMetrics :=
  if ¬ truthy value ∨ ¬ isObjectType value then
    { operationsTotal := 0, operationsSuccess := 0, dataBytes := 0, rate := 0 }
  else
    { operationsTotal :=
        toNumeric (coalesce (getField value "operationsTotal") (getField value "operations_total"))
      operationsSuccess :=
        toNumeric (coalesce (getField value "operationsSuccess") (getField value "operations_success"))
      dataBytes :=
        max 0 (toNumeric (coalesce (getField value "dataBytes") (getField value "data_bytes")))
      rate := toNumeric (getField value "rate") }

/-- types/index.ts `TransferActualCategoryMetrics`. -/
structure TransferActualCategoryMetrics where
  normal : TransferActualMetrics
  repair : TransferActualMetrics
deriving DecidableEq, Repr

/-- apiClient.ts `extractCategoryMetrics`. -/
def extractCategoryMetrics (category : JSVal) : TransferActualCategoryMetrics :=
  if ¬ truthy category ∨ ¬ isObjectType category then
    { normal := extractMetrics .vnull, repair := extractMetrics .vnull }
  else
    { normal := extractMetrics (getField category "normal")
      repair := extractMetrics (getField category "repair") }

/-- types/index.ts `PaystubRecord` after client sanitization. -/
structure PaystubRecord where
  source : String
  satelliteId : String
  period : String
  created : String
  usageAtRest : ℚ
  usageGet : ℚ
  usagePut : ℚ
  usageGetRepair : ℚ
  usagePutRepair : ℚ
  usageGetAudit : ℚ
  compAtRest : ℚ
  compGet : ℚ
  compPut : ℚ
  compGetRepair : ℚ
  compPutRepair : ℚ
  compGetAudit : ℚ
  surgePercent : ℚ
  held : ℚ
  owed : ℚ
  disposed : ℚ
  paid : ℚ
  distributed : ℚ
deriving DecidableEq, Repr

/-- apiClient.ts `fetchPayoutPaystubs.ensureNumber` (identical to
`toNumeric`). -/
def ensureNumber (value : JSVal) : ℚ :=
  match toNumber value with
  | .fin q => q
  | _ => 0

/-- apiClient.ts `fetchPayoutPaystubs.sanitizeRecord`. -/
def sanitizeRecord (item : JSVal) : PaystubRecord :=
  { source := toStr (coalesce (getField item "source") (.vstr "" (.fin 0)))
    satelliteId := toStr (coalesce (coalesce (getField item "satelliteId") (getField item "satellite_id")) (.vstr "" (.fin 0)))
    period := toStr (coalesce (getField item "period") (.vstr "" (.fin 0)))
    created := toStr (coalesce (getField item "created") (.vstr "" (.fin 0)))
    usageAtRest := ensureNumber (coalesce (getField item "usageAtRest") (getField item "usage_at_rest"))
    usageGet := ensureNumber (coalesce (getField item "usageGet") (getField item "usage_get"))
    usagePut := ensureNumber (coalesce (getField item "usagePut") (getField item "usage_put"))
    usageGetRepair := ensureNumber (coalesce (getField item "usageGetRepair") (getField item "usage_get_repair"))
    usagePutRepair := ensureNumber (coalesce (getField item "usagePutRepair") (getField item "usage_put_repair"))
    usageGetAudit := ensureNumber (coalesce (getField item "usageGetAudit") (getField item "usage_get_audit"))
    compAtRest := ensureNumber (coalesce (getField item "compAtRest") (getField item "comp_at_rest"))
    compGet := ensureNumber (coalesce (getField item "compGet") (getField item "comp_get"))
    compPut := ensureNumber (coalesce (getField item "compPut") (getField item "comp_put"))
    compGetRepair := ensureNumber (coalesce (getField item "compGetRepair") (getField item "comp_get_repair"))
    compPutRepair := ensureNumber (coalesce (getField item "compPutRepair") (getField item "comp_put_repair"))
    compGetAudit := ensureNumber (coalesce (getField item "compGetAudit") (getField item "comp_get_audit"))
    surgePercent := ensureNumber (coalesce (getField item "surgePercent") (getField item "surge_percent"))
    held := ensureNumber (getField item "held")
    owed := ensureNumber (getField item "owed")
    disposed := ensureNumber (getField item "disposed")
    paid := ensureNumber (getField item "paid")
    distributed := ensureNumber (getField item "distributed") }

/-- Inner loop of apiClient.ts `fetchPayoutPaystubs`: keep only truthy object
entries of a period's raw record array and sanitize them. -/
def normalizePaystubEntries (records : List JSVal) : List PaystubRecord :=
  records.foldl
    (fun acc entry =>
      if ¬ truthy entry ∨ ¬ isObjectType entry then acc
      else acc ++ [sanitizeRecord entry])
    []

/-- Outer loop of apiClient.ts `fetchPayoutPaystubs`: build the `periods` map
from the raw `periods` object; a period is added only when its normalized
record list is nonempty (`if (normalized.length > 0)`). -/
def buildPaystubPeriods (entries : List (String × JSVal)) : List (String × List PaystubRecord) :=
  entries.foldl
    (fun acc pr =>
      match pr.2 with
      | .varr elems _ _ =>
          let normalized := normalizePaystubEntries elems
          if normalized.length > 0 then acc ++ [(pr.1, normalized)] else acc
      | _ => acc)
    []

/-- apiClient.ts `fetchPayoutPaystubs`, the response-shaping part: extract the
raw `periods` object (`"periods" in raw ? raw.periods ?? {} : {}`) and run the
period loop over its entries. -/
def fetchPayoutPaystubsPeriods (raw : JSVal) : List (String × List PaystubRecord) :=
  let rawPeriods :=
    if truthy raw ∧ isObjectType raw ∧ hasField raw "periods" then
      coalesce (getField raw "periods") (.vobj [])
    else
      .vobj []
  if truthy rawPeriods ∧ isObjectType rawPeriods then
    match rawPeriods with
    | .vobj entries => buildPaystubPeriods entries
    | _ => []
  else
    []

/-- The 16-field per-node totals record of types/index.ts
`TransferTotalsNode`. -/
structure TransferTotalsNode where
  sizeDlSuccNor : ℚ
  sizeUlSuccNor : ℚ
  sizeDlFailNor : ℚ
  sizeUlFailNor : ℚ
  sizeDlSuccRep : ℚ
  sizeUlSuccRep : ℚ
  sizeDlFailRep : ℚ
  sizeUlFailRep : ℚ
  countDlSuccNor : ℚ
  countUlSuccNor : ℚ
  countDlFailNor : ℚ
  countUlFailNor : ℚ
  countDlSuccRep : ℚ
  countUlSuccRep : ℚ
  countDlFailRep : ℚ
  countUlFailRep : ℚ
deriving DecidableEq, Repr

/-- Per-entry normalization inside apiClient.ts `fetchTransferTotals`. -/
def sanitizeTotalsNode (entry : JSVal) : TransferTotalsNode :=
  { sizeDlSuccNor := toNumeric (coalesce (getField entry "sizeDlSuccNor") (getField entry "size_dl_succ_nor"))
    sizeUlSuccNor := toNumeric (coalesce (getField entry "sizeUlSuccNor") (getField entry "size_ul_succ_nor"))
    sizeDlFailNor := toNumeric (coalesce (getField entry "sizeDlFailNor") (getField entry "size_dl_fail_nor"))
    sizeUlFailNor := toNumeric (coalesce (getField entry "sizeUlFailNor") (getField entry "size_ul_fail_nor"))
    sizeDlSuccRep := toNumeric (coalesce (getField entry "sizeDlSuccRep") (getField entry "size_dl_succ_rep"))
    sizeUlSuccRep := toNumeric (coalesce (getField entry "sizeUlSuccRep") (getField entry "size_ul_succ_rep"))
    sizeDlFailRep := toNumeric (coalesce (getField entry "sizeDlFailRep") (getField entry "size_dl_fail_rep"))
    sizeUlFailRep := toNumeric (coalesce (getField entry "sizeUlFailRep") (getField entry "size_ul_fail_rep"))
    countDlSuccNor := toNumeric (coalesce (getField entry "countDlSuccNor") (getField entry "count_dl_succ_nor"))
    countUlSuccNor := toNumeric (coalesce (getField entry "countUlSuccNor") (getField entry "count_ul_succ_nor"))
    countDlFailNor := toNumeric (coalesce (getField entry "countDlFailNor") (getField entry "count_dl_fail_nor"))
    countUlFailNor := toNumeric (coalesce (getField entry "countUlFailNor") (getField entry "count_ul_fail_nor"))
    countDlSuccRep := toNumeric (coalesce (getField entry "countDlSuccRep") (getField entry "count_dl_succ_rep"))
    countUlSuccRep := toNumeric (coalesce (getField entry "countUlSuccRep") (getField entry "count_ul_succ_rep"))
    countDlFailRep := toNumeric (coalesce (getField entry "countDlFailRep") (getField entry "count_dl_fail_rep"))
    countUlFailRep := toNumeric (coalesce (getField entry "countUlFailRep") (getField entry "count_ul_fail_rep")) }

/-- units.ts `RateUnit`. -/
inductive RateUnit where
  | bps
  | Kbps
  | Mbps
deriving DecidableEq, Repr

/-- units.ts `SizeUnit`. -/
inductive SizeUnit where
  | B
  | KB
  | MB
  | GB
deriving DecidableEq, Repr

/-- units.ts `RATE_UNITS` (unit, factor). -/
def RATE_UNITS : List (RateUnit × ℚ) :=
  [(.bps, 1), (.Kbps, 1000), (.Mbps, 1000000)]

/-- units.ts `SIZE_UNITS` (unit, factor). -/
def SIZE_UNITS : List (SizeUnit × ℚ) :=
  [(.B, 1), (.KB, 1024), (.MB, 1024 ^ 2), (.GB, 1024 ^ 3)]

/-- units.ts `normalizePositive`: finite and positive, else 0. -/
def normalizePositive (value : JNum) : ℚ :=
  match value with
  | .fin q => if q > 0 then q else 0
  | _ => 0

/-- The candidate loop shared by `pickRateUnit` / `pickSizeUnit`: first unit
whose scaled value lies in [1, bound). -/
def findUnitFor {α : Type} (safe bound : ℚ) : List (α × ℚ) → Option (α × ℚ)
  | [] => none
  | c :: rest =>
      if 1 ≤ safe / c.2 ∧ safe / c.2 < bound then some c else findUnitFor safe bound rest

/-- units.ts `pickRateUnit`. -/
def pickRateUnit (bitRate : JNum) : RateUnit × ℚ :=
  let safeRate := normalizePositive bitRate
  match findUnitFor safeRate 1000 RATE_UNITS with
  | some c => c
  | none =>
      let largest := RATE_UNITS.getLastD (.bps, 1)
      if safeRate ≥ largest.2 then largest else RATE_UNITS.headD (.bps, 1)

/-- units.ts `pickRatePresentation`. -/
def pickRatePresentation (bitRate : JNum) : ℚ × RateUnit :=
  let u := pickRateUnit bitRate
  (normalizePositive bitRate / u.2, u.1)

/-- units.ts `pickSizeUnit`. -/
def pickSizeUnit (bytes : JNum) : SizeUnit × ℚ :=
  let safeBytes := normalizePositive bytes
  match findUnitFor safeBytes 1024 SIZE_UNITS with
  | some c => c
  | none =>
      let largest := SIZE_UNITS.getLastD (.B, 1)
      if safeBytes ≥ largest.2 then largest else SIZE_UNITS.headD (.B, 1)

/-- units.ts `pickSizePresentation`. -/
def pickSizePresentation (bytes : JNum) : ℚ × SizeUnit :=
  let u := pickSizeUnit bytes
  (normalizePositive bytes / u.2, u.1)

/-- panels/ActualPerformancePanel.tsx `MetricView`. -/
structure MetricView where
  operationsTotal : ℚ
  operationsSuccess : ℚ
  successRate : ℚ
  bitRate : ℚ
  rateValue : ℚ
  rateUnit : RateUnit
  dataBytes : ℚ
  sizeValue : ℚ
  sizeUnit : SizeUnit
deriving DecidableEq, Repr

/-- panels/ActualPerformancePanel.tsx `buildMetricView`. -/
def buildMetricView (operationsTotal operationsSuccess rateBytesPerSecond dataBytes : JNum) :
    MetricView :=
  let total := finiteOr0 operationsTotal
  let success := finiteOr0 operationsSuccess
  let bytesRate := finiteOr0 rateBytesPerSecond
  let bytesTotal := finiteOr0 dataBytes
  let successRate := if total > 0 then success / total * 100 else 0
  let bitRate := bytesRate * 8
  let ratePres := pickRatePresentation (.fin bitRate)
  let sizePres := pickSizePresentation (.fin bytesTotal)
  { operationsTotal := total
    operationsSuccess := success
    successRate := successRate
    bitRate := bitRate
    rateValue := ratePres.1
    rateUnit := ratePres.2
    dataBytes := bytesTotal
    sizeValue := sizePres.1
    sizeUnit := sizePres.2 }

/-- A transfer bucket as consumed by HourlyTrafficPanel.tsx and
AccumulatedTrafficPanel.tsx: the 16 `size*`/`count*` fields may be absent
(`?? 0` in the source) and the bucket bounds are Date epoch-milliseconds. -/
structure TransferBucket where
  bucketStartMs : ℤ
  bucketEndMs : ℤ
  sizeDlSuccNor : Option ℚ := none
  sizeUlSuccNor : Option ℚ := none
  sizeDlFailNor : Option ℚ := none
  sizeUlFailNor : Option ℚ := none
  sizeDlSuccRep : Option ℚ := none
  sizeUlSuccRep : Option ℚ := none
  sizeDlFailRep : Option ℚ := none
  sizeUlFailRep : Option ℚ := none
  countDlSuccNor : Option ℚ := none
  countUlSuccNor : Option ℚ := none
  countDlFailNor : Option ℚ := none
  countUlFailNor : Option ℚ := none
  countDlSuccRep : Option ℚ := none
  countUlSuccRep : Option ℚ := none
  countDlFailRep : Option ℚ := none
  countUlFailRep : Option ℚ := none
deriving DecidableEq, Repr

/-- HourlyTrafficPanel.tsx `rows`: `dlSuccess`. -/
def hourlyDlSuccess (b : TransferBucket) : ℚ :=
  b.countDlSuccNor.getD 0 + b.countDlSuccRep.getD 0

/-- HourlyTrafficPanel.tsx `rows`: `dlTotal`. -/
def hourlyDlTotal (b : TransferBucket) : ℚ :=
  hourlyDlSuccess b + b.countDlFailNor.getD 0 + b.countDlFailRep.getD 0

/-- HourlyTrafficPanel.tsx `rows`: `dlRatePct`. -/
def hourlyDlRatePct (b : TransferBucket) : ℚ :=
  if hourlyDlTotal b > 0 then hourlyDlSuccess b / hourlyDlTotal b * 100 else 0

/-- HourlyTrafficPanel.tsx `rows`: `ulSuccess`. -/
def hourlyUlSuccess (b : TransferBucket) : ℚ :=
  b.countUlSuccNor.getD 0 + b.countUlSuccRep.getD 0

/-- HourlyTrafficPanel.tsx `rows`: `ulTotal`. -/
def hourlyUlTotal (b : TransferBucket) : ℚ :=
  hourlyUlSuccess b + b.countUlFailNor.getD 0 + b.countUlFailRep.getD 0

/-- HourlyTrafficPanel.tsx `rows`: `ulRatePct`. -/
def hourlyUlRatePct (b : TransferBucket) : ℚ :=
  if hourlyUlTotal b > 0 then hourlyUlSuccess b / hourlyUlTotal b * 100 else 0

/-- HourlyTrafficPanel.tsx `rows`: `dlBytes` (successful normal plus repair
download bytes). -/
def bucketDlBytes (b : TransferBucket) : ℚ :=
  b.sizeDlSuccNor.getD 0 + b.sizeDlSuccRep.getD 0

/-- HourlyTrafficPanel.tsx `rows`: `ulBytes`. -/
def bucketUlBytes (b : TransferBucket) : ℚ :=
  b.sizeUlSuccNor.getD 0 + b.sizeUlSuccRep.getD 0

/-- `Math.max(1, Math.floor((be.getTime() - bs.getTime()) / 1000))`, shared
verbatim by HourlyTrafficPanel.tsx and AccumulatedTrafficPanel.tsx. -/
def bucketSeconds (b : TransferBucket) : ℤ :=
  max 1 ((b.bucketEndMs - b.bucketStartMs).fdiv 1000)

/-- HourlyTrafficPanel.tsx `rows`: `dlBps` (bytes per second). -/
def hourlyDlBps (b : TransferBucket) : ℚ :=
  bucketDlBytes b / (bucketSeconds b : ℚ)

/-- HourlyTrafficPanel.tsx `rows`: `ulBps`. -/
def hourlyUlBps (b : TransferBucket) : ℚ :=
  bucketUlBytes b / (bucketSeconds b : ℚ)

/-- HourlyTrafficPanel.tsx `rows`: the bit rate handed to
`pickRatePresentation` (`dlBps * 8`). -/
def hourlyDlBitRate (b : TransferBucket) : ℚ := hourlyDlBps b * 8

/-- HourlyTrafficPanel.tsx `rows`: `ulBps * 8`. -/
def hourlyUlBitRate (b : TransferBucket) : ℚ := hourlyUlBps b * 8

/-- AccumulatedTrafficPanel.tsx `chartData`, speed mode: `dl` in bits per
second (`(dlBytes * 8) / seconds`). -/
def accumulatedDlBps (b : TransferBucket) : ℚ :=
  bucketDlBytes b * 8 / (bucketSeconds b : ℚ)

/-- AccumulatedTrafficPanel.tsx `chartData`, speed mode: `ul`. -/
def accumulatedUlBps (b : TransferBucket) : ℚ :=
  bucketUlBytes b * 8 / (bucketSeconds b : ℚ)

/-- NodeComparePanel.tsx display mode. -/
inductive CompareMode where
  | size
  | count
  | speed
deriving DecidableEq, Repr

/-- NodeComparePanel.tsx slice computation: `downloadSize` etc. -/
def compareDownloadSize (t : TransferTotalsNode) : ℚ := t.sizeDlSuccNor + t.sizeDlSuccRep

/-- NodeComparePanel.tsx `downloadFailSize`. -/
def compareDownloadFailSize (t : TransferTotalsNode) : ℚ := t.sizeDlFailNor + t.sizeDlFailRep

/-- NodeComparePanel.tsx `uploadSize`. -/
def compareUploadSize (t : TransferTotalsNode) : ℚ := t.sizeUlSuccNor + t.sizeUlSuccRep

/-- NodeComparePanel.tsx `uploadFailSize`. -/
def compareUploadFailSize (t : TransferTotalsNode) : ℚ := t.sizeUlFailNor + t.sizeUlFailRep

/-- NodeComparePanel.tsx `downloadCount`. -/
def compareDownloadCount (t : TransferTotalsNode) : ℚ := t.countDlSuccNor + t.countDlSuccRep

/-- NodeComparePanel.tsx `downloadFail`. -/
def compareDownloadFail (t : TransferTotalsNode) : ℚ := t.countDlFailNor + t.countDlFailRep

/-- NodeComparePanel.tsx `uploadCount`. -/
def compareUploadCount (t : TransferTotalsNode) : ℚ := t.countUlSuccNor + t.countUlSuccRep

/-- NodeComparePanel.tsx `uploadFail`. -/
def compareUploadFail (t : TransferTotalsNode) : ℚ := t.countUlFailNor + t.countUlFailRep

/-- NodeComparePanel.tsx `downloadSuccessDenominator` (counts in count mode,
sizes otherwise). -/
def compareDownloadDenominator (mode : CompareMode) (t : TransferTotalsNode) : ℚ :=
  if mode = .count then compareDownloadCount t + compareDownloadFail t
  else compareDownloadSize t + compareDownloadFailSize t

/-- NodeComparePanel.tsx `downloadSuccessNumerator`. -/
def compareDownloadNumerator (mode : CompareMode) (t : TransferTotalsNode) : ℚ :=
  if mode = .count then compareDownloadCount t else compareDownloadSize t

/-- NodeComparePanel.tsx `downloadSuccessRate`. -/
def compareDownloadSuccessRate (mode : CompareMode) (t : TransferTotalsNode) : ℚ :=
  if compareDownloadDenominator mode t > 0 then
    compareDownloadNumerator mode t / compareDownloadDenominator mode t * 100
  else 0

/-- NodeComparePanel.tsx `uploadSuccessDenominator`. -/
def compareUploadDenominator (mode : CompareMode) (t : TransferTotalsNode) : ℚ :=
  if mode = .count then compareUploadCount t + compareUploadFail t
  else compareUploadSize t + compareUploadFailSize t

/-- NodeComparePanel.tsx `uploadSuccessNumerator`. -/
def compareUploadNumerator (mode : CompareMode) (t : TransferTotalsNode) : ℚ :=
  if mode = .count then compareUploadCount t else compareUploadSize t

/-- NodeComparePanel.tsx `uploadSuccessRate`. -/
def compareUploadSuccessRate (mode : CompareMode) (t : TransferTotalsNode) : ℚ :=
  if compareUploadDenominator mode t > 0 then
    compareUploadNumerator mode t / compareUploadDenominator mode t * 100
  else 0

/-- DataSizeDistributionPanel.tsx `SIZE_ORDER`. -/
def SIZE_ORDER : List String := ["1K", "4K", "16K", "64K", "256K", "1M", "BIG"]

/-- DataSizeDistributionPanel.tsx `SIZE_LABELS`. -/
def SIZE_LABELS : List (String × String) :=
  [("1K", "< 1KB"), ("4K", "< 4KB"), ("16K", "< 16KB"), ("64K", "< 64KB"),
   ("256K", "< 256KB"), ("1M", "< 1MB"), ("BIG", "> 1MB")]

/-- JS `String.prototype.toUpperCase` modelled character-wise (each character
mapped to its upper-case form). -/
def jsToUpper (s : String) : String := ⟨s.data.map Char.toUpper⟩

/-- DataSizeDistributionPanel.tsx `orderIndex`.  A missing or empty
`sizeClass` is falsy in JS and sorts with the unknown classes; a class whose
upper-cased form is not in `SIZE_ORDER` (JS `indexOf` gives -1, modelled by
Lean's `indexOf` giving the length) maps past the known indices. -/
def orderIndex (sc : Option String) : ℕ :=
  match sc with
  | none => SIZE_ORDER.length + 1
  | some s =>
      if s = "" then SIZE_ORDER.length + 1
      else
        let key := jsToUpper s
        let idx := SIZE_ORDER.indexOf key
        if idx = SIZE_ORDER.length then SIZE_ORDER.length + 1 else idx

/-- DataSizeDistributionPanel.tsx label resolution:
`SIZE_LABELS[raw] ?? it.sizeClass ?? String(raw)` with
`raw = String(it.sizeClass ?? "").toUpperCase()`. -/
def sizeLabel (sc : Option String) : String :=
  let raw := jsToUpper (sc.getD "")
  match SIZE_LABELS.lookup raw with
  | some l => l
  | none => sc.getD raw

/-- A distribution row: the `sizeClass` key by which the panel sorts, plus a
representative data field (the remaining 15 numeric fields play no role in
ordering). -/
structure DistRow where
  sizeClass : Option String
  countDlSuccNor : ℚ := 0
deriving DecidableEq, Repr

/-- Row comparison used by the panel's stable sort:
`orderIndex(a.sizeClass) - orderIndex(b.sizeClass) ≤ 0`. -/
def distRowLe (a b : DistRow) : Prop := orderIndex a.sizeClass ≤ orderIndex b.sizeClass

instance : DecidableRel distRowLe := fun a b => by
  unfold distRowLe
  infer_instance

/-- DataSizeDistributionPanel.tsx `normalizedItems.sort(...)`: JS
`Array.prototype.sort` is stable, modelled by insertion sort on the
comparator's order. -/
def sortDistribution (items : List DistRow) : List DistRow :=
  items.insertionSort distRowLe

/-- useTransfersActual.ts `combineCategoryMetrics` (`category?.normal ??
ZERO_METRICS`, then field-wise sums). -/
def combineCategoryMetrics (category : Option TransferActualCategoryMetrics) :
    TransferActualMetrics :=
  let normal := (category.map TransferActualCategoryMetrics.normal).getD ZERO_METRICS
  let repair := (category.map TransferActualCategoryMetrics.repair).getD ZERO_METRICS
  { operationsTotal := normal.operationsTotal + repair.operationsTotal
    operationsSuccess := normal.operationsSuccess + repair.operationsSuccess
    dataBytes := normal.dataBytes + repair.dataBytes
    rate := normal.rate + repair.rate }

/-- types/index.ts `TransferActualData` (satellite breakdown omitted: it does
not feed the aggregation). -/
structure TransferActualData where
  startTime : String
  endTime : String
  download : TransferActualCategoryMetrics
  upload : TransferActualCategoryMetrics
deriving DecidableEq, Repr

/-- types/index.ts `TransferActualAggregated`. -/
structure TransferActualAggregated where
  startTime : String
  endTime : String
  download : TransferActualMetrics
  upload : TransferActualMetrics
deriving DecidableEq, Repr

/-- useTransfersActual.ts `aggregated` (the non-null branch of the
`useMemo`). -/
def aggregatedOf (data : TransferActualData) : TransferActualAggregated :=
  { startTime := data.startTime
    endTime := data.endTime
    download := combineCategoryMetrics (some data.download)
    upload := combineCategoryMetrics (some data.upload) }

/-- useTransfersActual.ts `requestNodes`:
`selected.includes("All") ? [] : selected`. -/
def requestNodes (selected : List String) : List String :=
  if selected.contains "All" then [] else selected

/-- useDiskUsageUsage.ts `refresh` node filter:
`nodes.includes("All") ? [] : nodes`. -/
def diskUsageNodeFilter (nodes : List String) : List String :=
  if nodes.contains "All" then [] else nodes

/-- useSelectedNodes.ts `toggleNode`, step 1 (non-"All" branch): dropping the
"All" pseudo-entry (`if (next.includes("All")) next = []`). -/
def toggleDropAll (selected : List String) : List String :=
  if selected.contains "All" then [] else selected

/-- useSelectedNodes.ts `toggleNode`, step 2: removing the name when present
(`next.filter((item) => item !== name)`), appending it otherwise. -/
def toggleRemoveAdd (next0 : List String) (name : String) : List String :=
  if next0.contains name then next0.filter (fun item => item ≠ name) else next0 ++ [name]

/-- useSelectedNodes.ts `toggleNode`, step 3: collapsing an empty selection,
or one whose length matches the available-node count, back to `["All"]`. -/
def toggleCollapse (next1 availableNodeNames : List String) : List String :=
  if next1.length = 0 then ["All"]
  else if next1.length = availableNodeNames.length then ["All"]
  else next1

/-- useSelectedNodes.ts `toggleNode` as a pure state transition on the
`selected` list: the "All" branch short-circuits, the other branch runs the
three steps in sequence. -/
def toggleNode (selected : List String) (name : String) (availableNodeNames : List String) :
    List String :=
  if name = "All" then ["All"]
  else toggleCollapse (toggleRemoveAdd (toggleDropAll selected) name) availableNodeNames

/-- Store states reachable from the initial `["All"]` selection by toggling
names offered by the UI (NodesPanel renders the "All" pseudo-node plus the
configured node names and passes exactly those to `toggleNode`). -/
inductive ReachableSelection (avail : List String) : List String → Prop where
  | init : ReachableSelection avail ["All"]
  | step {sel : List String} {name : String} :
      ReachableSelection avail sel →
      name = "All" ∨ name ∈ avail →
      ReachableSelection avail (toggleNode sel name avail)

/-- The selection-store invariant: the selection is the lone `["All"]`
pseudo-state, or a nonempty duplicate-free list of proper node names drawn
from the available nodes that is strictly shorter than the available list. -/
def SelInv (avail sel : List String) : Prop :=
  sel = ["All"] ∨
    ("All" ∉ sel ∧ sel.Nodup ∧ sel ⊆ avail ∧ sel ≠ [] ∧ sel.length < avail.length)

/-- requestDeduper.ts dedup key: the sorted selection, or the reserved
`"__ALL__"` key for the empty selection.  `JSON.stringify` of the sorted
string array is injective, so the key is modelled by the sorted list itself;
JS `Array.prototype.sort()` on strings is modelled by insertion sort in the
string order. -/
inductive DedupKey where
  | allKey
  | listKey (sorted : List String)
deriving DecidableEq, Repr

/-- requestDeduper.ts `normalizeSelectionKey`. -/
def normalizeSelectionKey (selection : List String) : DedupKey :=
  if selection.length ≠ 0 then
    .listKey (selection.insertionSort (fun a b => a ≤ b))
  else
    .allKey

/-- The deduper's `calls` map (`Map<string, LastCall>`), newest binding
first. -/
def DeduperCalls : Type := List (DedupKey × ℤ)

/-- `calls.set(key, {time})`: replace any previous binding. -/
def dedupSet (calls : DeduperCalls) (key : DedupKey) (time : ℤ) : DeduperCalls :=
  (key, time) :: (List.filter (fun p => p.1 ≠ key) calls)

/-- `calls.get(key)`. -/
def dedupGet (calls : DeduperCalls) (key : DedupKey) : Option ℤ :=
  List.lookup key calls

/-- requestDeduper.ts `isDuplicate`, with `Date.now()` passed explicitly:
returns the boolean result and the updated `calls` map (a non-duplicate call
is recorded). -/
def isDuplicate (calls : DeduperCalls) (selection : List String) (windowMs now : ℤ) :
    Bool × DeduperCalls :=
  let key := normalizeSelectionKey selection
  match dedupGet calls key with
  | some last =>
      if now - last < windowMs then (true, calls)
      else (false, dedupSet calls key now)
  | none => (false, dedupSet calls key now)

/-- Spec-side statement for the transfers-actual aggregation: the field-wise
sum of two metric records. -/
def addMetricsSpec (a b : TransferActualMetrics) : TransferActualMetrics :=
  { operationsTotal := a.operationsTotal + b.operationsTotal
    operationsSuccess := a.operationsSuccess + b.operationsSuccess
    dataBytes := a.dataBytes + b.dataBytes
    rate := a.rate + b.rate }

/-- Spec-side: sanitize one raw record when it is a valid (truthy object)
entry, drop it otherwise. -/
def sanitizeValidEntry (e : JSVal) : Option PaystubRecord :=
  if truthy e ∧ isObjectType e then some (sanitizeRecord e) else none

/-- Spec-side: the contribution of one raw period entry to the periods map —
its valid records sanitized in order, omitted when the raw value is not an
array or the valid record list is empty. -/
def paystubPeriodsSpecOne (pr : String × JSVal) : Option (String × List PaystubRecord) :=
  match pr.2 with
  | .varr elems _ _ =>
      let valid := elems.filterMap sanitizeValidEntry
      if valid = [] then none else some (pr.1, valid)
  | _ => none

/-- Spec-side statement for the paystub grouping, written from the amended
claim: each period whose raw value is an array maps to its valid (truthy
object) records sanitized in order, and a period whose valid record list is
empty is omitted from the map. -/
def paystubPeriodsSpec (entries : List (String × JSVal)) :
    List (String × List PaystubRecord) :=
  entries.filterMap paystubPeriodsSpecOne

/-- Claim-side download speed for a bucket: successful bytes divided by the
bucket duration in (exact, possibly fractional) seconds. -/
def claimedDlSpeed (b : TransferBucket) : ℚ :=
  bucketDlBytes b / (((b.bucketEndMs - b.bucketStartMs : ℤ) : ℚ) / 1000)

/-- All-zero per-node totals record. -/
def zeroTotalsNode : TransferTotalsNode :=
  { sizeDlSuccNor := 0, sizeUlSuccNor := 0, sizeDlFailNor := 0, sizeUlFailNor := 0
    sizeDlSuccRep := 0, sizeUlSuccRep := 0, sizeDlFailRep := 0, sizeUlFailRep := 0
    countDlSuccNor := 0, countUlSuccNor := 0, countDlFailNor := 0, countUlFailNor := 0
    countDlSuccRep := 0, countUlSuccRep := 0, countDlFailRep := 0, countUlFailRep := 0 }

/-- One distribution row per known size class, in the canonical order. -/
def canonicalDistRows : List DistRow :=
  SIZE_ORDER.map (fun c => { sizeClass := some c })

/-- A concrete bucket with no recorded operations. -/
def exampleEmptyBucket : TransferBucket :=
  { bucketStartMs := 0, bucketEndMs := 3600000 }

/-- A concrete one-hour bucket with 7200 normal and 3600 repair successful
download bytes. -/
def exampleHourBucket : TransferBucket :=
  { bucketStartMs := 0, bucketEndMs := 3600000,
    sizeDlSuccNor := some 7200, sizeDlSuccRep := some 3600 }

/-- A concrete bucket lasting half a second with one successful download
byte. -/
def exampleHalfSecondBucket : TransferBucket :=
  { bucketStartMs := 0, bucketEndMs := 500, sizeDlSuccNor := some 1 }

/-- C7: For every /transfers/actual response, the aggregated per-direction
metrics equal the field-wise sum of the normal and repair category metrics for
each of operationsTotal, operationsSuccess, dataBytes, and rate, with a
missing category contributing all-zero fields. -/
theorem aggregated_is_fieldwise_sum_of_categories :
    (∀ data : TransferActualData,
        (aggregatedOf data).download = addMetricsSpec data.download.normal data.download.repair ∧
        (aggregatedOf data).upload = addMetricsSpec data.upload.normal data.upload.repair) ∧
    (∀ c : TransferActualCategoryMetrics,
        combineCategoryMetrics (some c) = addMetricsSpec c.normal c.repair) ∧
    combineCategoryMetrics none = addMetricsSpec ZERO_METRICS ZERO_METRICS :=
  ⟨fun _ => ⟨rfl, rfl⟩, fun _ => rfl, rfl⟩

/-- C1: For every (invariantly nonempty) user node selection, the node filter
sent with a query request is the empty array exactly when the selection
contains the "All" pseudo-node; otherwise it is precisely the list of
individually selected node names.  This covers both
`useTransfersActual.requestNodes` and the `useDiskUsageUsage.refresh` node
filter, which compute the same expression. -/
theorem node_filter_empty_iff_all (sel : List String) (hne : sel ≠ []) :
    (requestNodes sel = [] ↔ "All" ∈ sel) ∧
    ("All" ∉ sel → requestNodes sel = sel) ∧
    diskUsageNodeFilter sel = requestNodes sel := by
  refine ⟨?_, ?_, rfl⟩
  · by_cases h : "All" ∈ sel
    · simp [requestNodes, h]
    · simp [requestNodes, h, hne]
  · intro h
    simp [requestNodes, h]

theorem node_filter_empty_iff_all_witness :
    (requestNodes ["node1", "All"] = [] ↔ "All" ∈ (["node1", "All"] : List String)) ∧
    ("All" ∉ (["node1", "All"] : List String) → requestNodes ["node1", "All"] = ["node1", "All"]) ∧
    diskUsageNodeFilter ["node1", "All"] = requestNodes ["node1", "All"] :=
  node_filter_empty_iff_all ["node1", "All"] (by decide)

/-- C2: the client normalizers make every numeric field a finite rational: a
missing field (absent key), a null, or a non-numeric value (one whose JS
`Number` conversion is NaN or ±Infinity) maps to 0; `dataBytes` is
additionally clamped to be nonnegative; a response for a window with zero
matching events (all-zero or absent fields, or a null metrics object)
normalizes to all-zero metric records. -/
theorem normalizers_default_to_zero :
    (∀ v : JSVal,
        toNumber v = .nan ∨ toNumber v = .inf ∨ toNumber v = .ninf → toNumeric v = 0) ∧
    toNumeric .vundefined = 0 ∧
    toNumeric .vnull = 0 ∧
    (∀ (fields : List (String × JSVal)) (k : String),
        List.lookup k fields = none → toNumeric (getField (.vobj fields) k) = 0) ∧
    (∀ v : JSVal, 0 ≤ (extractMetrics v).dataBytes) ∧
    extractMetrics .vnull = ZERO_METRICS ∧
    extractMetrics (.vobj []) = ZERO_METRICS ∧
    extractCategoryMetrics .vnull = { normal := ZERO_METRICS, repair := ZERO_METRICS } ∧
    sanitizeTotalsNode (.vobj []) = zeroTotalsNode := by
  refine ⟨?_, rfl, rfl, ?_, ?_, rfl, rfl, rfl, rfl⟩
  · intro v h
    unfold toNumeric
    rcases h with h | h | h <;> rw [h]
  · intro fields k h
    simp [getField, h, toNumeric, toNumber]
  · intro v
    unfold extractMetrics
    split
    · exact le_refl 0
    · exact le_max_left 0 _

theorem normalizers_default_to_zero_witness :
    toNumeric (JSVal.vstr "not a number" JNum.nan) = 0 ∧
    toNumeric (getField (JSVal.vobj [("rate", JSVal.vnum (JNum.fin 7))]) "dataBytes") = 0 :=
  ⟨normalizers_default_to_zero.1 _ (Or.inl rfl),
   normalizers_default_to_zero.2.2.2.1 [("rate", JSVal.vnum (JNum.fin 7))] "dataBytes" rfl⟩

/-- C4: whenever a success-rate denominator is zero (`operationsTotal = 0` in
`buildMetricView`, zero total counts for a direction in the hourly rows, zero
total counts or sizes for a direction in the node-compare slices), the
computed success-rate value is exactly 0. -/
theorem success_rate_zero_on_zero_denominator :
    (∀ s r d : JNum, (buildMetricView (.fin 0) s r d).successRate = 0) ∧
    (∀ b : TransferBucket, hourlyDlTotal b = 0 → hourlyDlRatePct b = 0) ∧
    (∀ b : TransferBucket, hourlyUlTotal b = 0 → hourlyUlRatePct b = 0) ∧
    (∀ (m : CompareMode) (t : TransferTotalsNode),
        compareDownloadDenominator m t = 0 → compareDownloadSuccessRate m t = 0) ∧
    (∀ (m : CompareMode) (t : TransferTotalsNode),
        compareUploadDenominator m t = 0 → compareUploadSuccessRate m t = 0) := by
  refine ⟨?_, ?_, ?_, ?_, ?_⟩
  · intro s r d
    simp [buildMetricView, finiteOr0]
  · intro b h
    simp [hourlyDlRatePct, h]
  · intro b h
    simp [hourlyUlRatePct, h]
  · intro m t h
    simp [compareDownloadSuccessRate, h]
  · intro m t h
    simp [compareUploadSuccessRate, h]

theorem success_rate_zero_on_zero_denominator_witness :
    hourlyDlRatePct exampleEmptyBucket = 0 ∧
    compareDownloadSuccessRate CompareMode.count zeroTotalsNode = 0 :=
  ⟨success_rate_zero_on_zero_denominator.2.1 _
      (by simp [hourlyDlTotal, hourlyDlSuccess, exampleEmptyBucket]),
   success_rate_zero_on_zero_denominator.2.2.2.1 CompareMode.count zeroTotalsNode
      (by simp [compareDownloadDenominator, compareDownloadCount, compareDownloadFail,
                zeroTotalsNode])⟩

/-- C5 counterexample: for a bucket lasting 500 milliseconds holding one
successful download byte, the client computes 1 byte/s (the divisor is
clamped to `max(1, floor(ms / 1000)) = 1` whole second), while the claimed
"bytes divided by the bucket duration in seconds" is 2 bytes/s. -/
theorem bucket_speed_clamp_counterexample :
    hourlyDlBps exampleHalfSecondBucket = 1 ∧
    claimedDlSpeed exampleHalfSecondBucket = 2 ∧
    hourlyDlBps exampleHalfSecondBucket ≠ claimedDlSpeed exampleHalfSecondBucket := by
  have hsec : bucketSeconds exampleHalfSecondBucket = 1 := by
    show max 1 (((500 : ℤ) - 0).fdiv 1000) = 1
    decide
  have hb : bucketDlBytes exampleHalfSecondBucket = 1 := by
    simp [bucketDlBytes, exampleHalfSecondBucket]
  have h1 : hourlyDlBps exampleHalfSecondBucket = 1 := by
    unfold hourlyDlBps
    rw [hsec, hb]
    norm_num
  have h2 : claimedDlSpeed exampleHalfSecondBucket = 2 := by
    unfold claimedDlSpeed
    rw [hb]
    show (1 : ℚ) / ((((500 : ℤ) - 0 : ℤ) : ℚ) / 1000) = 2
    norm_num
  exact ⟨h1, h2, by rw [h1, h2]; norm_num⟩

/-- C5 (amended): the derived transfer speed equals the bucket's successful
bytes (normal plus repair) divided by `max(1, ⌊duration-ms / 1000⌋)` seconds;
in particular, for a bucket spanning a whole positive number `s` of seconds it
is exactly bytes/s averaged over the window (and agrees with the claimed
exact-duration quotient), and it is presented as bits/second by multiplying
by 8 (the accumulated-traffic panel's `(bytes * 8) / seconds` agrees with the
hourly panel's `(bytes / seconds) * 8`). -/
theorem bucket_speed_is_bytes_per_clamped_second (b : TransferBucket) (s : ℤ)
    (hs : 1 ≤ s) (hdur : b.bucketEndMs - b.bucketStartMs = 1000 * s) :
    hourlyDlBps b = bucketDlBytes b / (s : ℚ) ∧
    hourlyUlBps b = bucketUlBytes b / (s : ℚ) ∧
    hourlyDlBps b = claimedDlSpeed b ∧
    hourlyDlBitRate b = 8 * (bucketDlBytes b / (s : ℚ)) ∧
    accumulatedDlBps b = hourlyDlBitRate b ∧
    accumulatedUlBps b = hourlyUlBitRate b := by
  have hsec : bucketSeconds b = s := by
    unfold bucketSeconds
    rw [hdur, Int.mul_fdiv_cancel_left _ (by norm_num)]
    exact max_eq_right hs
  have hDl : hourlyDlBps b = bucketDlBytes b / (s : ℚ) := by
    unfold hourlyDlBps
    rw [hsec]
  have hUl : hourlyUlBps b = bucketUlBytes b / (s : ℚ) := by
    unfold hourlyUlBps
    rw [hsec]
  refine ⟨hDl, hUl, ?_, ?_, ?_, ?_⟩
  · unfold claimedDlSpeed
    rw [hdur, hDl]
    push_cast
    rw [mul_div_cancel_left₀ ((s : ℚ)) (by norm_num : (1000 : ℚ) ≠ 0)]
  · unfold hourlyDlBitRate
    rw [hDl]
    ring
  · unfold accumulatedDlBps hourlyDlBitRate hourlyDlBps
    ring
  · unfold accumulatedUlBps hourlyUlBitRate hourlyUlBps
    ring

theorem bucket_speed_is_bytes_per_clamped_second_witness :
    hourlyDlBps exampleHourBucket = bucketDlBytes exampleHourBucket / ((3600 : ℤ) : ℚ) ∧
    hourlyUlBps exampleHourBucket = bucketUlBytes exampleHourBucket / ((3600 : ℤ) : ℚ) ∧
    hourlyDlBps exampleHourBucket = claimedDlSpeed exampleHourBucket ∧
    hourlyDlBitRate exampleHourBucket =
      8 * (bucketDlBytes exampleHourBucket / ((3600 : ℤ) : ℚ)) ∧
    accumulatedDlBps exampleHourBucket = hourlyDlBitRate exampleHourBucket ∧
    accumulatedUlBps exampleHourBucket = hourlyUlBitRate exampleHourBucket :=
  bucket_speed_is_bytes_per_clamped_second exampleHourBucket 3600 (by decide) (by decide)

theorem normalizePaystubEntries_eq_filterMap (records : List JSVal) :
    normalizePaystubEntries records = records.filterMap sanitizeValidEntry := by
  have aux : ∀ (l : List JSVal) (acc : List PaystubRecord),
      l.foldl
          (fun acc entry =>
            if ¬ truthy entry ∨ ¬ isObjectType entry then acc
            else acc ++ [sanitizeRecord entry]) acc =
        acc ++ l.filterMap sanitizeValidEntry := by
    intro l
    induction l with
    | nil => intro acc; simp
    | cons e rest ih =>
        intro acc
        rw [List.foldl_cons, List.filterMap_cons]
        by_cases ht : truthy e
        · by_cases ho : isObjectType e
          · have hg : sanitizeValidEntry e = some (sanitizeRecord e) := by
              unfold sanitizeValidEntry
              exact if_pos ⟨ht, ho⟩
            rw [hg]
            dsimp only
            rw [if_neg (by simp [ht, ho]), ih]
            simp
          · have hg : sanitizeValidEntry e = none := by
              unfold sanitizeValidEntry
              exact if_neg (fun h => ho h.2)
            rw [hg]
            dsimp only
            rw [if_pos (Or.inr ho), ih]
        · have hg : sanitizeValidEntry e = none := by
            unfold sanitizeValidEntry
            exact if_neg (fun h => ht h.1)
          rw [hg]
          dsimp only
          rw [if_pos (Or.inl ht), ih]
  unfold normalizePaystubEntries
  rw [aux records []]
  simp

theorem buildPaystubPeriods_eq_spec (entries : List (String × JSVal)) :
    buildPaystubPeriods entries = paystubPeriodsSpec entries := by
  have aux : ∀ (l : List (String × JSVal)) (acc : List (String × List PaystubRecord)),
      l.foldl
          (fun acc pr =>
            match pr.2 with
            | .varr elems _ _ =>
                let normalized := normalizePaystubEntries elems
                if normalized.length > 0 then acc ++ [(pr.1, normalized)] else acc
            | _ => acc) acc =
        acc ++ paystubPeriodsSpec l := by
    intro l
    induction l with
    | nil => intro acc; simp [paystubPeriodsSpec]
    | cons pr rest ih =>
        intro acc
        obtain ⟨p, v⟩ := pr
        rw [List.foldl_cons]
        show _ = acc ++ paystubPeriodsSpec ((p, v) :: rest)
        unfold paystubPeriodsSpec
        rw [List.filterMap_cons]
        cases v with
        | varr elems cn cs =>
            by_cases hv : elems.filterMap sanitizeValidEntry = []
            · have hg : paystubPeriodsSpecOne (p, .varr elems cn cs) = none := by
                unfold paystubPeriodsSpecOne
                dsimp only
                rw [if_pos hv]
              have hn : normalizePaystubEntries elems = [] := by
                rw [normalizePaystubEntries_eq_filterMap, hv]
              rw [hg]
              dsimp only
              rw [hn]
              simp only [List.length_nil, gt_iff_lt, lt_self_iff_false, if_false]
              have h2 := ih acc
              unfold paystubPeriodsSpec at h2
              exact h2
            · have hg : paystubPeriodsSpecOne (p, .varr elems cn cs) =
                  some (p, elems.filterMap sanitizeValidEntry) := by
                unfold paystubPeriodsSpecOne
                dsimp only
                rw [if_neg hv]
              have hpos : (normalizePaystubEntries elems).length > 0 := by
                rw [normalizePaystubEntries_eq_filterMap]
                exact List.length_pos.mpr hv
              rw [hg]
              dsimp only
              rw [if_pos hpos]
              have h2 := ih (acc ++ [(p, normalizePaystubEntries elems)])
              unfold paystubPeriodsSpec at h2
              rw [h2, normalizePaystubEntries_eq_filterMap]
              simp
        | vundefined =>
            have h2 := ih acc
            unfold paystubPeriodsSpec at h2
            exact h2
        | vnull =>
            have h2 := ih acc
            unfold paystubPeriodsSpec at h2
            exact h2
        | vbool b =>
            have h2 := ih acc
            unfold paystubPeriodsSpec at h2
            exact h2
        | vnum n =>
            have h2 := ih acc
            unfold paystubPeriodsSpec at h2
            exact h2
        | vstr s c =>
            have h2 := ih acc
            unfold paystubPeriodsSpec at h2
            exact h2
        | vobj fields =>
            have h2 := ih acc
            unfold paystubPeriodsSpec at h2
            exact h2
  unfold buildPaystubPeriods
  rw [aux entries []]
  simp

/-- C3 counterexample: a /payout/paystubs response whose `periods` object maps
the period "2024-01" to an empty record array normalizes to an empty periods
map — the period is omitted, not kept with an empty array. -/
theorem paystub_empty_period_omitted_counterexample :
    fetchPayoutPaystubsPeriods
        (.vobj [("periods", .vobj [("2024-01", .varr [] (.fin 0) "")])]) = [] ∧
    (fetchPayoutPaystubsPeriods
        (.vobj [("periods", .vobj [("2024-01", .varr [] (.fin 0) "")])])).lookup "2024-01"
      = none :=
  ⟨rfl, rfl⟩

/-- C3 (amended): the /payout/paystubs result maps billing periods to the
sanitized arrays of their valid (truthy object) raw records, but a period
whose valid record list is empty — or whose raw value is not an array — is
omitted from the periods map, not kept with an empty array. -/
theorem paystub_periods_group_nonempty_only (entries : List (String × JSVal))
    (fields : List (String × JSVal))
    (hp : fields.lookup "periods" = some (.vobj entries)) :
    fetchPayoutPaystubsPeriods (.vobj fields) = paystubPeriodsSpec entries ∧
    (∀ (p : String) (rs : List PaystubRecord),
        (p, rs) ∈ fetchPayoutPaystubsPeriods (.vobj fields) → rs ≠ []) := by
  have hmain : fetchPayoutPaystubsPeriods (.vobj fields) = paystubPeriodsSpec entries := by
    unfold fetchPayoutPaystubsPeriods
    dsimp only
    have hhf : hasField (JSVal.vobj fields) "periods" = true := by
      simp [hasField, hp]
    rw [if_pos (⟨rfl, rfl, hhf⟩ :
      truthy (JSVal.vobj fields) = true ∧ isObjectType (JSVal.vobj fields) = true ∧
        hasField (JSVal.vobj fields) "periods" = true)]
    have hco : coalesce (getField (JSVal.vobj fields) "periods") (JSVal.vobj []) =
        JSVal.vobj entries := by
      simp [getField, hp, coalesce, nullish]
    rw [hco]
    rw [if_pos (⟨rfl, rfl⟩ :
      truthy (JSVal.vobj entries) = true ∧ isObjectType (JSVal.vobj entries) = true)]
    exact buildPaystubPeriods_eq_spec entries
  refine ⟨hmain, ?_⟩
  intro p rs hmem
  rw [hmain] at hmem
  unfold paystubPeriodsSpec at hmem
  obtain ⟨⟨p', v⟩, hin, hg⟩ := List.mem_filterMap.mp hmem
  unfold paystubPeriodsSpecOne at hg
  cases v with
  | varr elems cn cs =>
      dsimp only at hg
      by_cases hv : elems.filterMap sanitizeValidEntry = []
      · rw [if_pos hv] at hg
        exact absurd hg (by simp)
      · rw [if_neg hv] at hg
        have hrs : rs = elems.filterMap sanitizeValidEntry :=
          congrArg Prod.snd (Option.some.inj hg).symm
        rw [hrs]
        exact hv
  | vundefined => exact absurd hg (by simp)
  | vnull => exact absurd hg (by simp)
  | vbool b => exact absurd hg (by simp)
  | vnum n => exact absurd hg (by simp)
  | vstr s c => exact absurd hg (by simp)
  | vobj f2 => exact absurd hg (by simp)

theorem paystub_periods_group_nonempty_only_witness :
    fetchPayoutPaystubsPeriods
        (.vobj [("periods", .vobj [("2024-02", .varr [.vobj []] (.fin 0) "")])]) =
      paystubPeriodsSpec [("2024-02", .varr [.vobj []] (.fin 0) "")] ∧
    (∀ (p : String) (rs : List PaystubRecord),
        (p, rs) ∈ fetchPayoutPaystubsPeriods
            (.vobj [("periods", .vobj [("2024-02", .varr [.vobj []] (.fin 0) "")])]) →
        rs ≠ []) :=
  paystub_periods_group_nonempty_only
    [("2024-02", .varr [.vobj []] (.fin 0) "")]
    [("periods", .vobj [("2024-02", .varr [.vobj []] (.fin 0) "")])]
    rfl

theorem pickSizeUnit_eq_B (b : ℚ) (h1 : 1 ≤ b) (h2 : b < 1024) :
    pickSizeUnit (.fin b) = (.B, 1) := by
  have hpos : b > 0 := lt_of_lt_of_le zero_lt_one h1
  have hnp : normalizePositive (.fin b) = b := by
    unfold normalizePositive
    dsimp only
    exact if_pos hpos
  unfold pickSizeUnit SIZE_UNITS
  rw [hnp]
  simp only [findUnitFor]
  rw [if_pos ⟨by rwa [div_one], by rwa [div_one]⟩]

theorem pickSizeUnit_eq_KB (b : ℚ) (h1 : 1024 ≤ b) (h2 : b < 1024 ^ 2) :
    pickSizeUnit (.fin b) = (.KB, 1024) := by
  have hpos : b > 0 := lt_of_lt_of_le (by norm_num) h1
  have hc1 : ¬ ((1 : ℚ) ≤ b / 1 ∧ b / 1 < 1024) := by
    rw [div_one]
    exact fun h => absurd h.2 (not_lt.mpr h1)
  have hc2 : (1 : ℚ) ≤ b / 1024 ∧ b / 1024 < 1024 := by
    constructor
    · rw [le_div_iff₀ (by norm_num)]
      linarith
    · rw [div_lt_iff₀ (by norm_num)]
      nlinarith
  have hnp : normalizePositive (.fin b) = b := by
    unfold normalizePositive
    dsimp only
    exact if_pos hpos
  unfold pickSizeUnit SIZE_UNITS
  rw [hnp]
  simp only [findUnitFor]
  rw [if_neg hc1, if_pos hc2]

theorem pickSizeUnit_eq_MB (b : ℚ) (h1 : 1024 ^ 2 ≤ b) (h2 : b < 1024 ^ 3) :
    pickSizeUnit (.fin b) = (.MB, 1024 ^ 2) := by
  have hpos : b > 0 := lt_of_lt_of_le (by norm_num) h1
  have hc1 : ¬ ((1 : ℚ) ≤ b / 1 ∧ b / 1 < 1024) := by
    rw [div_one]
    exact fun h => absurd h.2 (not_lt.mpr (by nlinarith))
  have hc2 : ¬ ((1 : ℚ) ≤ b / 1024 ∧ b / 1024 < 1024) := by
    refine fun h => absurd h.2 (not_lt.mpr ?_)
    rw [le_div_iff₀ (by norm_num)]
    nlinarith
  have hc3 : (1 : ℚ) ≤ b / 1024 ^ 2 ∧ b / 1024 ^ 2 < 1024 := by
    constructor
    · rw [le_div_iff₀ (by norm_num)]
      nlinarith
    · rw [div_lt_iff₀ (by norm_num)]
      nlinarith
  have hnp : normalizePositive (.fin b) = b := by
    unfold normalizePositive
    dsimp only
    exact if_pos hpos
  unfold pickSizeUnit SIZE_UNITS
  rw [hnp]
  simp only [findUnitFor]
  rw [if_neg hc1, if_neg hc2, if_pos hc3]

theorem pickSizeUnit_eq_GB (b : ℚ) (h1 : 1024 ^ 3 ≤ b) (h2 : b < 1024 ^ 4) :
    pickSizeUnit (.fin b) = (.GB, 1024 ^ 3) := by
  have hpos : b > 0 := lt_of_lt_of_le (by norm_num) h1
  have hc1 : ¬ ((1 : ℚ) ≤ b / 1 ∧ b / 1 < 1024) := by
    rw [div_one]
    exact fun h => absurd h.2 (not_lt.mpr (by nlinarith))
  have hc2 : ¬ ((1 : ℚ) ≤ b / 1024 ∧ b / 1024 < 1024) := by
    refine fun h => absurd h.2 (not_lt.mpr ?_)
    rw [le_div_iff₀ (by norm_num)]
    nlinarith
  have hc3 : ¬ ((1 : ℚ) ≤ b / 1024 ^ 2 ∧ b / 1024 ^ 2 < 1024) := by
    refine fun h => absurd h.2 (not_lt.mpr ?_)
    rw [le_div_iff₀ (by norm_num)]
    nlinarith
  have hc4 : (1 : ℚ) ≤ b / 1024 ^ 3 ∧ b / 1024 ^ 3 < 1024 := by
    constructor
    · rw [le_div_iff₀ (by norm_num)]
      nlinarith
    · rw [div_lt_iff₀ (by norm_num)]
      nlinarith
  have hnp : normalizePositive (.fin b) = b := by
    unfold normalizePositive
    dsimp only
    exact if_pos hpos
  unfold pickSizeUnit SIZE_UNITS
  rw [hnp]
  simp only [findUnitFor]
  rw [if_neg hc1, if_neg hc2, if_neg hc3, if_pos hc4]

theorem pickRateUnit_eq_bps (r : ℚ) (h1 : 1 ≤ r) (h2 : r < 1000) :
    pickRateUnit (.fin r) = (.bps, 1) := by
  have hpos : r > 0 := lt_of_lt_of_le zero_lt_one h1
  have hnp : normalizePositive (.fin r) = r := by
    unfold normalizePositive
    dsimp only
    exact if_pos hpos
  unfold pickRateUnit RATE_UNITS
  rw [hnp]
  simp only [findUnitFor]
  rw [if_pos ⟨by rwa [div_one], by rwa [div_one]⟩]

theorem pickRateUnit_eq_Kbps (r : ℚ) (h1 : 1000 ≤ r) (h2 : r < 1000 ^ 2) :
    pickRateUnit (.fin r) = (.Kbps, 1000) := by
  have hpos : r > 0 := lt_of_lt_of_le (by norm_num) h1
  have hc1 : ¬ ((1 : ℚ) ≤ r / 1 ∧ r / 1 < 1000) := by
    rw [div_one]
    exact fun h => absurd h.2 (not_lt.mpr h1)
  have hc2 : (1 : ℚ) ≤ r / 1000 ∧ r / 1000 < 1000 := by
    constructor
    · rw [le_div_iff₀ (by norm_num)]
      linarith
    · rw [div_lt_iff₀ (by norm_num)]
      nlinarith
  have hnp : normalizePositive (.fin r) = r := by
    unfold normalizePositive
    dsimp only
    exact if_pos hpos
  unfold pickRateUnit RATE_UNITS
  rw [hnp]
  simp only [findUnitFor]
  rw [if_neg hc1, if_pos hc2]

theorem pickRateUnit_eq_Mbps (r : ℚ) (h1 : 1000 ^ 2 ≤ r) (h2 : r < 1000 ^ 3) :
    pickRateUnit (.fin r) = (.Mbps, 1000000) := by
  have hpos : r > 0 := lt_of_lt_of_le (by norm_num) h1
  have hc1 : ¬ ((1 : ℚ) ≤ r / 1 ∧ r / 1 < 1000) := by
    rw [div_one]
    exact fun h => absurd h.2 (not_lt.mpr (by nlinarith))
  have hc2 : ¬ ((1 : ℚ) ≤ r / 1000 ∧ r / 1000 < 1000) := by
    refine fun h => absurd h.2 (not_lt.mpr ?_)
    rw [le_div_iff₀ (by norm_num)]
    nlinarith
  have hc3 : (1 : ℚ) ≤ r / 1000000 ∧ r / 1000000 < 1000 := by
    constructor
    · rw [le_div_iff₀ (by norm_num)]
      nlinarith
    · rw [div_lt_iff₀ (by norm_num)]
      nlinarith
  have hnp : normalizePositive (.fin r) = r := by
    unfold normalizePositive
    dsimp only
    exact if_pos hpos
  unfold pickRateUnit RATE_UNITS
  rw [hnp]
  simp only [findUnitFor]
  rw [if_neg hc1, if_neg hc2, if_pos hc3]

/-- C10: for every finite byte count `b` with `1 ≤ b < 1024⁴`,
`pickSizePresentation` returns a value and unit whose product recovers `b`
with the value in `[1, 1024)`; non-finite or non-positive input yields value 0
with unit B.  `pickRatePresentation` behaves analogously with decimal factors
1, 1000, 1000000 and bound 1000 (so for `1 ≤ r < 1000³`). -/
theorem pick_presentation_exact_and_bounded :
    (∀ b : ℚ, 1 ≤ b → b < 1024 ^ 4 →
        (pickSizePresentation (.fin b)).1 * (pickSizeUnit (.fin b)).2 = b ∧
        1 ≤ (pickSizePresentation (.fin b)).1 ∧
        (pickSizePresentation (.fin b)).1 < 1024) ∧
    pickSizePresentation .nan = (0, .B) ∧
    pickSizePresentation .inf = (0, .B) ∧
    pickSizePresentation .ninf = (0, .B) ∧
    (∀ q : ℚ, q ≤ 0 → pickSizePresentation (.fin q) = (0, .B)) ∧
    (∀ r : ℚ, 1 ≤ r → r < 1000 ^ 3 →
        (pickRatePresentation (.fin r)).1 * (pickRateUnit (.fin r)).2 = r ∧
        1 ≤ (pickRatePresentation (.fin r)).1 ∧
        (pickRatePresentation (.fin r)).1 < 1000) ∧
    pickRatePresentation .nan = (0, .bps) ∧
    (∀ q : ℚ, q ≤ 0 → pickRatePresentation (.fin q) = (0, .bps)) := by
  have hzero_size : ∀ v : JNum, normalizePositive v = 0 → pickSizePresentation v = (0, .B) := by
    intro v hv
    unfold pickSizePresentation pickSizeUnit SIZE_UNITS
    rw [hv]
    simp only [findUnitFor]
    norm_num
  have hzero_rate : ∀ v : JNum, normalizePositive v = 0 → pickRatePresentation v = (0, .bps) := by
    intro v hv
    unfold pickRatePresentation pickRateUnit RATE_UNITS
    rw [hv]
    simp only [findUnitFor]
    norm_num
  have hnp_nonpos : ∀ q : ℚ, q ≤ 0 → normalizePositive (.fin q) = 0 := by
    intro q hq
    unfold normalizePositive
    dsimp only
    rw [if_neg (not_lt.mpr hq)]
  refine ⟨?_, hzero_size .nan rfl, hzero_size .inf rfl, hzero_size .ninf rfl,
    fun q hq => hzero_size (.fin q) (hnp_nonpos q hq), ?_,
    hzero_rate .nan rfl, fun q hq => hzero_rate (.fin q) (hnp_nonpos q hq)⟩
  · intro b h1 h2
    have hpos : b > 0 := lt_of_lt_of_le zero_lt_one h1
    have hnp : normalizePositive (.fin b) = b := by
      unfold normalizePositive
      dsimp only
      rw [if_pos hpos]
    rcases lt_or_le b 1024 with hb1 | hb1
    · have hu := pickSizeUnit_eq_B b h1 hb1
      unfold pickSizePresentation
      rw [hu, hnp]
      dsimp only
      refine ⟨by rw [div_one, mul_one], by rwa [div_one], by rwa [div_one]⟩
    rcases lt_or_le b (1024 ^ 2) with hb2 | hb2
    · have hu := pickSizeUnit_eq_KB b hb1 hb2
      unfold pickSizePresentation
      rw [hu, hnp]
      dsimp only
      refine ⟨div_mul_cancel₀ b (by norm_num), ?_, ?_⟩
      · rw [le_div_iff₀ (by norm_num)]
        linarith
      · rw [div_lt_iff₀ (by norm_num)]
        nlinarith
    rcases lt_or_le b (1024 ^ 3) with hb3 | hb3
    · have hu := pickSizeUnit_eq_MB b hb2 hb3
      unfold pickSizePresentation
      rw [hu, hnp]
      dsimp only
      refine ⟨div_mul_cancel₀ b (by norm_num), ?_, ?_⟩
      · rw [le_div_iff₀ (by norm_num)]
        nlinarith
      · rw [div_lt_iff₀ (by norm_num)]
        nlinarith
    · have hu := pickSizeUnit_eq_GB b hb3 h2
      unfold pickSizePresentation
      rw [hu, hnp]
      dsimp only
      refine ⟨div_mul_cancel₀ b (by norm_num), ?_, ?_⟩
      · rw [le_div_iff₀ (by norm_num)]
        nlinarith
      · rw [div_lt_iff₀ (by norm_num)]
        nlinarith
  · intro r h1 h2
    have hpos : r > 0 := lt_of_lt_of_le zero_lt_one h1
    have hnp : normalizePositive (.fin r) = r := by
      unfold normalizePositive
      dsimp only
      rw [if_pos hpos]
    rcases lt_or_le r 1000 with hr1 | hr1
    · have hu := pickRateUnit_eq_bps r h1 hr1
      unfold pickRatePresentation
      rw [hu, hnp]
      dsimp only
      refine ⟨by rw [div_one, mul_one], by rwa [div_one], by rwa [div_one]⟩
    rcases lt_or_le r (1000 ^ 2) with hr2 | hr2
    · have hu := pickRateUnit_eq_Kbps r hr1 hr2
      unfold pickRatePresentation
      rw [hu, hnp]
      dsimp only
      refine ⟨div_mul_cancel₀ r (by norm_num), ?_, ?_⟩
      · rw [le_div_iff₀ (by norm_num)]
        linarith
      · rw [div_lt_iff₀ (by norm_num)]
        nlinarith
    · have hu := pickRateUnit_eq_Mbps r hr2 h2
      unfold pickRatePresentation
      rw [hu, hnp]
      dsimp only
      refine ⟨div_mul_cancel₀ r (by norm_num), ?_, ?_⟩
      · rw [le_div_iff₀ (by norm_num)]
        nlinarith
      · rw [div_lt_iff₀ (by norm_num)]
        nlinarith

theorem pick_presentation_exact_and_bounded_witness :
    (pickSizePresentation (.fin 5000)).1 * (pickSizeUnit (.fin 5000)).2 = 5000 ∧
    1 ≤ (pickSizePresentation (.fin 5000)).1 ∧
    (pickSizePresentation (.fin 5000)).1 < 1024 ∧
    pickSizePresentation (.fin (-3)) = (0, .B) ∧
    (pickRatePresentation (.fin 2500)).1 * (pickRateUnit (.fin 2500)).2 = 2500 ∧
    1 ≤ (pickRatePresentation (.fin 2500)).1 ∧
    (pickRatePresentation (.fin 2500)).1 < 1000 := by
  obtain ⟨hs, _, _, _, hnonpos, hr, _, _⟩ := pick_presentation_exact_and_bounded
  obtain ⟨a1, a2, a3⟩ := hs 5000 (by norm_num) (by norm_num)
  obtain ⟨b1, b2, b3⟩ := hr 2500 (by norm_num) (by norm_num)
  exact ⟨a1, a2, a3, hnonpos (-3) (by norm_num), b1, b2, b3⟩

theorem toggleCollapse_inv (next1 avail : List String)
    (hAll : "All" ∉ next1) (hnd : next1.Nodup) (hsub : next1 ⊆ avail) :
    SelInv avail (toggleCollapse next1 avail) := by
  unfold toggleCollapse
  by_cases h0 : next1.length = 0
  · rw [if_pos h0]
    left
    rfl
  rw [if_neg h0]
  by_cases hl : next1.length = avail.length
  · rw [if_pos hl]
    left
    rfl
  rw [if_neg hl]
  right
  refine ⟨hAll, hnd, hsub, ?_, ?_⟩
  · intro hnil
    exact h0 (by rw [hnil]; rfl)
  · have hle : next1.length ≤ avail.length := by
      calc next1.length = next1.toFinset.card := (List.toFinset_card_of_nodup hnd).symm
        _ ≤ avail.toFinset.card := Finset.card_le_card (fun x hx => by
              rw [List.mem_toFinset] at hx ⊢
              exact hsub hx)
        _ ≤ avail.length := List.toFinset_card_le avail
    exact lt_of_le_of_ne hle hl

theorem toggleNode_preserves_inv (avail sel : List String) (name : String)
    (hname : name = "All" ∨ name ∈ avail) (h : SelInv avail sel) :
    SelInv avail (toggleNode sel name avail) := by
  unfold toggleNode
  by_cases hn : name = "All"
  · rw [if_pos hn]
    left
    rfl
  rw [if_neg hn]
  have hnavail : name ∈ avail := hname.resolve_left hn
  rcases h with hAllSel | ⟨hAll, hnd, hsub, _, _⟩
  · subst hAllSel
    have hd : toggleDropAll ["All"] = [] := by
      unfold toggleDropAll
      rw [if_pos (by simp)]
    rw [hd]
    have hr : toggleRemoveAdd [] name = [name] := by
      unfold toggleRemoveAdd
      rw [if_neg (by simp)]
      rfl
    rw [hr]
    refine toggleCollapse_inv [name] avail ?_ (List.nodup_singleton name) ?_
    · intro hmem
      rw [List.mem_singleton] at hmem
      exact hn hmem.symm
    · intro x hx
      rw [List.mem_singleton] at hx
      subst hx
      exact hnavail
  · have hd : toggleDropAll sel = sel := by
      unfold toggleDropAll
      rw [if_neg (by simpa using hAll)]
    rw [hd]
    by_cases hm : name ∈ sel
    · have hr : toggleRemoveAdd sel name = sel.filter (fun item => item ≠ name) := by
        unfold toggleRemoveAdd
        rw [if_pos (by simpa using hm)]
      rw [hr]
      refine toggleCollapse_inv _ avail ?_ (hnd.filter _) ?_
      · intro hmem
        exact hAll (List.filter_subset' sel hmem)
      · intro x hx
        exact hsub (List.filter_subset' sel hx)
    · have hr : toggleRemoveAdd sel name = sel ++ [name] := by
        unfold toggleRemoveAdd
        rw [if_neg (by simpa using hm)]
      rw [hr]
      refine toggleCollapse_inv _ avail ?_ ?_ ?_
      · intro hmem
        rcases List.mem_append.mp hmem with h1 | h1
        · exact hAll h1
        · rw [List.mem_singleton] at h1
          exact hn h1.symm
      · rw [List.nodup_append]
        refine ⟨hnd, List.nodup_singleton _, ?_⟩
        intro x hx hy
        rw [List.mem_singleton] at hy
        subst hy
        exact hm hx
      · intro x hx
        rcases List.mem_append.mp hx with h1 | h1
        · exact hsub h1
        · rw [List.mem_singleton] at h1
          subst h1
          exact hnavail

/-- C8: starting from the initial selection `["All"]`, after every sequence of
`toggleNode` operations (with a fixed duplicate-free available-node list and
names drawn from the UI's "All"-plus-available offer) the selected-nodes list
is never empty, contains "All" only as the singleton `["All"]`, and collapses
to `["All"]` whenever the individually selected names cover every available
node. -/
theorem selected_nodes_store_invariant (avail : List String) (hnd : avail.Nodup)
    (sel : List String) (hr : ReachableSelection avail sel) :
    sel ≠ [] ∧ ("All" ∈ sel → sel = ["All"]) ∧
      ((∀ a ∈ avail, a ∈ sel) → sel = ["All"]) := by
  have hinv : SelInv avail sel := by
    induction hr with
    | init => left; rfl
    | step hr0 hname ih => exact toggleNode_preserves_inv _ _ _ hname ih
  rcases hinv with h | ⟨hAll, hndsel, hsub, hne, hlen⟩
  · subst h
    exact ⟨by simp, fun _ => rfl, fun _ => rfl⟩
  · refine ⟨hne, fun hmem => absurd hmem hAll, fun hcov => ?_⟩
    exfalso
    have hle : avail.length ≤ sel.length := by
      calc avail.length = avail.toFinset.card := (List.toFinset_card_of_nodup hnd).symm
        _ ≤ sel.toFinset.card := Finset.card_le_card (fun x hx => by
              rw [List.mem_toFinset] at hx ⊢
              exact hcov x hx)
        _ = sel.length := List.toFinset_card_of_nodup hndsel
    exact absurd hlen (not_lt.mpr hle)

theorem selected_nodes_store_invariant_witness :
    (["alpha"] : List String) ≠ [] ∧
    ("All" ∈ (["alpha"] : List String) → (["alpha"] : List String) = ["All"]) ∧
    ((∀ a ∈ (["alpha", "beta"] : List String), a ∈ (["alpha"] : List String)) →
      (["alpha"] : List String) = ["All"]) := by
  have hstep : ReachableSelection ["alpha", "beta"] (toggleNode ["All"] "alpha" ["alpha", "beta"]) :=
    ReachableSelection.step ReachableSelection.init (Or.inr (by decide))
  have heq : toggleNode ["All"] "alpha" ["alpha", "beta"] = ["alpha"] := by rfl
  rw [heq] at hstep
  exact selected_nodes_store_invariant ["alpha", "beta"] (by decide) ["alpha"] hstep

theorem dedupGet_set (calls : DeduperCalls) (key : DedupKey) (t : ℤ) :
    dedupGet (dedupSet calls key t) key = some t := by
  unfold dedupGet dedupSet
  simp [List.lookup]

/-- C9: the request deduper's key is invariant under permutation of the
selection (the empty selection maps to the reserved all-nodes key), and
`isDuplicate` returns true exactly when a call with an equal selection was
recorded less than `windowMs` milliseconds earlier — recording the call time
when it returns false and leaving the map unchanged when it returns true. -/
theorem deduper_key_permutation_invariant :
    (∀ s₁ s₂ : List String, s₁.Perm s₂ →
        normalizeSelectionKey s₁ = normalizeSelectionKey s₂) ∧
    normalizeSelectionKey [] = DedupKey.allKey ∧
    (∀ (calls : DeduperCalls) (sel : List String) (w now : ℤ),
        ((isDuplicate calls sel w now).1 = true ↔
          ∃ t, dedupGet calls (normalizeSelectionKey sel) = some t ∧ now - t < w)) ∧
    (∀ (calls : DeduperCalls) (sel : List String) (w now : ℤ),
        (isDuplicate calls sel w now).1 = false →
        dedupGet (isDuplicate calls sel w now).2 (normalizeSelectionKey sel) = some now) ∧
    (∀ (calls : DeduperCalls) (sel : List String) (w now : ℤ),
        (isDuplicate calls sel w now).1 = true →
        (isDuplicate calls sel w now).2 = calls) := by
  refine ⟨?_, rfl, ?_, ?_, ?_⟩
  · intro s₁ s₂ hperm
    have hlen := hperm.length_eq
    unfold normalizeSelectionKey
    by_cases h : s₁.length = 0
    · rw [if_neg (fun hh => hh h), if_neg (fun hh => hh (hlen ▸ h))]
    · rw [if_pos h, if_pos (fun hh => h (hlen.trans hh))]
      have hsorted :
          s₁.insertionSort (fun a b => a ≤ b) = s₂.insertionSort (fun a b => a ≤ b) :=
        List.eq_of_perm_of_sorted
          ((List.perm_insertionSort _ s₁).trans
            (hperm.trans (List.perm_insertionSort _ s₂).symm))
          (List.sorted_insertionSort _ s₁) (List.sorted_insertionSort _ s₂)
      rw [hsorted]
  · intro calls sel w now
    unfold isDuplicate
    dsimp only
    cases hket : dedupGet calls (normalizeSelectionKey sel) with
    | none =>
        dsimp only
        simp
    | some last =>
        dsimp only
        by_cases hw : now - last < w
        · rw [if_pos hw]
          simp [hw]
        · rw [if_neg hw]
          simp [hw]
  · intro calls sel w now hfalse
    unfold isDuplicate at hfalse ⊢
    dsimp only at hfalse ⊢
    cases hket : dedupGet calls (normalizeSelectionKey sel) with
    | none => exact dedupGet_set calls _ now
    | some last =>
        rw [hket] at hfalse
        dsimp only at hfalse
        dsimp only
        by_cases hw : now - last < w
        · rw [if_pos hw] at hfalse
          exact absurd hfalse (by simp)
        · rw [if_neg hw]
          exact dedupGet_set calls _ now
  · intro calls sel w now htrue
    unfold isDuplicate at htrue ⊢
    dsimp only at htrue ⊢
    cases hket : dedupGet calls (normalizeSelectionKey sel) with
    | none =>
        rw [hket] at htrue
        dsimp only at htrue
        exact absurd htrue (by simp)
    | some last =>
        rw [hket] at htrue
        dsimp only at htrue
        dsimp only
        by_cases hw : now - last < w
        · rw [if_pos hw]
        · rw [if_neg hw] at htrue
          exact absurd htrue (by simp)

theorem deduper_key_permutation_invariant_witness :
    normalizeSelectionKey ["b", "a"] = normalizeSelectionKey ["a", "b"] ∧
    ((isDuplicate [] ["a"] 1000 5).1 = true ↔
      ∃ t, dedupGet [] (normalizeSelectionKey ["a"]) = some t ∧ 5 - t < 1000) ∧
    dedupGet (isDuplicate [] ["a"] 1000 5).2 (normalizeSelectionKey ["a"]) = some 5 := by
  obtain ⟨hperm, _, hiff, hrec, _⟩ := deduper_key_permutation_invariant
  exact ⟨hperm ["b", "a"] ["a", "b"] (List.Perm.swap "a" "b" []),
    hiff [] ["a"] 1000 5, hrec [] ["a"] 1000 5 rfl⟩

/-- C6: the data-size distribution view presents the seven fixed size classes
in the order 1K, 4K, 16K, 64K, 256K, 1M, BIG with labels "< 1KB" … "> 1MB";
the panel's sort is a permutation ordered by `orderIndex`, a known class
always sorts strictly before any row whose `sizeClass` is missing or not one
of the seven, and sorting the seven canonical rows (from reversed order)
yields exactly the canonical order. -/
theorem distribution_size_classes_ordered :
    (sizeLabel (some "1K") = "< 1KB" ∧ sizeLabel (some "4K") = "< 4KB" ∧
     sizeLabel (some "16K") = "< 16KB" ∧ sizeLabel (some "64K") = "< 64KB" ∧
     sizeLabel (some "256K") = "< 256KB" ∧ sizeLabel (some "1M") = "< 1MB" ∧
     sizeLabel (some "BIG") = "> 1MB") ∧
    (∀ items : List DistRow, (sortDistribution items).Perm items) ∧
    (∀ items : List DistRow, List.Sorted distRowLe (sortDistribution items)) ∧
    (∀ c ∈ SIZE_ORDER, orderIndex (some c) < orderIndex none) ∧
    (∀ s : String, s = "" ∨ jsToUpper s ∉ SIZE_ORDER →
        ∀ c ∈ SIZE_ORDER, orderIndex (some c) < orderIndex (some s)) ∧
    sortDistribution canonicalDistRows.reverse = canonicalDistRows := by
  have hknown : ∀ c ∈ SIZE_ORDER, orderIndex (some c) < SIZE_ORDER.length + 1 := by
    decide
  haveI : IsTotal DistRow distRowLe := ⟨fun a b => Nat.le_total _ _⟩
  haveI : IsTrans DistRow distRowLe := ⟨fun a b c hab hbc => Nat.le_trans hab hbc⟩
  refine ⟨⟨rfl, rfl, rfl, rfl, rfl, rfl, rfl⟩, ?_, ?_, ?_, ?_, ?_⟩
  · intro items
    exact List.perm_insertionSort _ items
  · intro items
    exact List.sorted_insertionSort _ items
  · intro c hc
    exact hknown c hc
  · intro s hs c hc
    have h8 : orderIndex (some s) = SIZE_ORDER.length + 1 := by
      unfold orderIndex
      dsimp only
      by_cases he : s = ""
      · rw [if_pos he]
      · rw [if_neg he]
        rcases hs with h | h
        · exact absurd h he
        · rw [if_pos (List.indexOf_eq_length.mpr h)]
    rw [h8]
    exact hknown c hc
  · rfl

theorem distribution_size_classes_ordered_witness :
    orderIndex (some "1K") < orderIndex none ∧
    orderIndex (some "BIG") < orderIndex (some "weird") := by
  obtain ⟨_, _, _, hkn, hunk, _⟩ := distribution_size_classes_ordered
  exact ⟨hkn "1K" (by decide), hunk "weird" (Or.inr (by decide)) "BIG" (by decide)⟩

end Monstr
